import Mathlib

set_option maxRecDepth 4096

/-!
Shallow embedding of the MCP connection manager of `tiny-mcp-host`
(`src/mcp/index.ts` / `src/mcp/types.ts`), together with proofs about the
claims on its connection lifecycle and registry operations.

Modelling conventions:
* JavaScript `Map<string, MCPConnection>` is an insertion-ordered association
  list with unique keys (`Registry`).
* Fallible awaited operations (client.connect, listTools, ...) are resolved by
  an explicit environment (`ConnectEnv`); a thrown JavaScript value is
  `Except.error (some msg)` for an `Error` with message `msg` and
  `Except.error none` for a non-`Error` throw.
* An `AbortController` replacement is modelled by bumping a generation
  counter; the listeners attached to the racing promises are resolved by the
  environment field naming the branch that settles first.
* Traces of the bulk registry operations are lists of `MgrEvent`; concurrent
  fan-out (`Promise.all` over `Array.map` of async functions) is modelled by
  the event-loop schedule in which every task first runs synchronously to its
  first `await`, and thereafter resumptions are processed in issue order
  (uniform latency), giving round-robin interleaving of the await-separated
  segments.
-/

/-! ## Data model (`src/mcp/types.ts`) -/

/-- Connection status for MCP servers (`MCPConnectionStatus`). -/
inductive MCPConnectionStatus where
  | connecting
  | connected
  | error
  | notConnected
deriving DecidableEq, Repr

/-- Transport options (`TransportOptions`), the tagged union of
`StdioOptions`, `SSEOptions` and `StreamableHttpOptions`. Record-typed fields
(`env`, `requestHeaders`) are association lists. -/
inductive TransportOptions where
  | stdio (command : String) (args : List String) (env : Option (List (String × String)))
  | streamableHttp (url : String) (requestHeaders : Option (List (String × String)))
  | sse (url : String)
deriving DecidableEq, Repr

/-- Argument descriptor of an MCP prompt (`MCPPrompt.arguments` element). -/
structure MCPPromptArgument where
  name : String
  description : Option String := none
  required : Option Bool := none
deriving DecidableEq, Repr

/-- Prompt descriptor (`MCPPrompt`). -/
structure MCPPrompt where
  name : String
  description : Option String := none
  arguments : Option (List MCPPromptArgument) := none
deriving DecidableEq, Repr

/-- Resource descriptor (`MCPResource`). -/
structure MCPResource where
  name : String
  uri : String
  description : Option String := none
  mimeType : Option String := none
deriving DecidableEq, Repr

/-- Tool descriptor (`MCPTool`). The untyped `inputSchema.properties`
record (`Record<string, any>`) is abstracted to its key list. -/
structure MCPTool where
  name : String
  description : Option String := none
  category : Option String := none
  inputSchemaType : String := "object"
  inputSchemaPropertyKeys : List String := []
deriving DecidableEq, Repr

/-- Connection configuration (`MCPOptions`). -/
structure MCPOptions where
  name : String
  id : String
  transport : TransportOptions
  faviconUrl : Option String := none
  timeout : Option Nat := none
deriving DecidableEq, Repr

/-- Default timeout for MCP connection attempts (`DEFAULT_MCP_TIMEOUT`). -/
def DEFAULT_MCP_TIMEOUT : Nat := 20000

/-! ## Connection state (`MCPConnection` fields) -/

/-- Mutable state of one `MCPConnection`.  `connectionPromiseActive` models
`this.connectionPromise !== null`; `abortGeneration` models the identity of
`this.abortController` (bumped whenever the controller is aborted and
replaced). The `client`/`transport` handles carry no state visible to the
claims and are not represented. -/
structure MCPConnection where
  options : MCPOptions
  status : MCPConnectionStatus := .notConnected
  errors : List String := []
  prompts : List MCPPrompt := []
  tools : List MCPTool := []
  resources : List MCPResource := []
  connectionPromiseActive : Bool := false
  abortGeneration : Nat := 0
deriving DecidableEq, Repr

/-- State produced by `new MCPConnection(options)`: fields take their
initializers (`status = "not-connected"`, empty lists, `connectionPromise`
null, a fresh `AbortController`). -/
def MCPConnection.init (options : MCPOptions) : MCPConnection :=
  { options := options }

/-! ## Registry (`MCPConnectorManager.connections`) -/

/-- The manager's `Map<string, MCPConnection>`: an insertion-ordered
association list with unique keys. -/
abbrev Registry := List (String × MCPConnection)

/-- Lookup by id (`this.connections.get(id)` / `getConnection`). -/
def lookupConn : Registry → String → Option MCPConnection
  | [], _ => none
  | (k, c) :: rest, id => if k = id then some c else lookupConn rest id

/-- Key-membership test (`this.connections.has(id)`). -/
def hasConn (m : Registry) (id : String) : Bool :=
  (lookupConn m id).isSome

/-- Deletion by id (`this.connections.delete(id)`); removes the unique entry
with that key, preserving the order of the others. -/
def eraseConn : Registry → String → Registry
  | [], _ => []
  | (k, c) :: rest, id => if k = id then rest else (k, c) :: eraseConn rest id

/-- `MCPConnectorManager.createConnection(id, options)`: if the map does not
have `id`, construct a `new MCPConnection(options)`, store it (insertion at
the end, preserving map insertion order) and return it; otherwise return
`this.getConnection(id)!` with the map untouched. -/
def createConnection (m : Registry) (id : String) (options : MCPOptions) :
    Registry × MCPConnection :=
  match lookupConn m id with
  | some c => (m, c)
  | none =>
      let connection := MCPConnection.init options
      (m ++ [(id, connection)], connection)

/-- `MCPConnectorManager.getAvailableConnectionResourcesWithId()`: entries of
the map filtered by `status === "connected" && resources.length > 0`,
projected to `{id, resources}`. -/
def getAvailableConnectionResourcesWithId (m : Registry) :
    List (String × List MCPResource) :=
  (m.filter fun p =>
      decide (p.2.status = .connected) && decide (p.2.resources.length > 0)).map
    fun p => (p.1, p.2.resources)

/-- Predicate of the loop body of `findConnectionByToolName`: does the
connection's cached tool list contain a tool with exactly this name
(`connection.tools.some(tool => tool.name === toolName)`). -/
def hasToolNamed (c : MCPConnection) (toolName : String) : Bool :=
  c.tools.any fun t => t.name = toolName

/-- `MCPConnectorManager.findConnectionByToolName(toolName)`: iterate the map
entries in insertion order and return the first `{connection, id}` whose
tool list contains the name; `undefined` (here `none`) when no entry
matches. No status filter is applied. -/
def findConnectionByToolName (m : Registry) (toolName : String) :
    Option (MCPConnection × String) :=
  match m with
  | [] => none
  | (id, c) :: rest =>
      if hasToolNamed c toolName then some (c, id)
      else findConnectionByToolName rest toolName

/-- Status replacement on one connection; used to express that
`findConnectionByToolName` is insensitive to connection status. -/
def setStatus (c : MCPConnection) (s : MCPConnectionStatus) : MCPConnection :=
  { c with status := s }

/-! ## String helpers

Executable character-list versions of the JavaScript string operations used
by `connectClient`'s catch block (`String.prototype.toLowerCase`,
`String.prototype.includes`, `String.prototype.split(" ")`), kept on
`List Char` so that the kernel can evaluate them on witnesses. -/

/-- Does `pat` match at the beginning of `s`? -/
def matchesAt : List Char → List Char → Bool
  | [], _ => true
  | _ :: _, [] => false
  | p :: ps, c :: cs => p = c && matchesAt ps cs

/-- Does `pat` occur contiguously anywhere in `s`
(JavaScript `s.includes(pat)`)? -/
def containsSeq (s pat : List Char) : Bool :=
  match s with
  | [] => pat.isEmpty
  | _ :: cs => matchesAt pat s || containsSeq cs pat

/-- JavaScript `s.split(" ")`: split at every single space, keeping empty
pieces, with `""` mapping to `[""]`. -/
def splitSpace : List Char → List (List Char)
  | [] => [[]]
  | c :: cs =>
      if c = ' ' then [] :: splitSpace cs
      else
        match splitSpace cs with
        | [] => [[c]]
        | w :: ws => (c :: w) :: ws

/-- JavaScript `s.toLowerCase()`, restricted to the ASCII lowering performed
by `Char.toLower` (sufficient for the ASCII diagnostics at issue). -/
def lowerStr (s : String) : String :=
  String.mk (s.data.map Char.toLower)

/-- JavaScript `s.includes(pat)` on `String`. -/
def strIncludes (s pat : String) : Bool :=
  containsSeq s.data pat.data

/-! ## Connect attempt environment

`connectClient` awaits several fallible operations and races three promises;
the environment fixes the outcome of each awaited operation and which racing
branch settles first, so that one call is a total function of
(state, arguments, environment). -/

/-- Outcome of one fallible awaited operation: `Except.error (some msg)` for
a thrown `Error` with message `msg`, `Except.error none` for a thrown
non-`Error` value. -/
abbrev MCPOutcome (α : Type) := Except (Option String) α

/-- The server capabilities object returned by
`this.client.getServerCapabilities()`; each field is the truthiness of the
corresponding capability property. -/
structure ServerCapabilities where
  resources : Bool
  tools : Bool
  prompts : Bool
deriving DecidableEq, Repr

/-- Which branch of `connectClient`'s top-level `Promise.race` settles
first: the external-signal abort listener, the own-controller abort listener
(a newer call superseded this one), or the connect attempt itself. -/
inductive RaceWinner where
  | externalAbort
  | ownAbort
  | attempt
deriving DecidableEq, Repr

/-- Environment resolving the awaited operations of a single connect
attempt. `timedOut = true` means the inner race's timeout rejector fires
before the connect sequence completes. -/
structure ConnectEnv where
  raceWinner : RaceWinner
  timedOut : Bool
  connectResult : MCPOutcome Unit
  reconnectResult : MCPOutcome Unit
  capabilities : Option ServerCapabilities
  listResources : MCPOutcome (List MCPResource)
  listTools : MCPOutcome (List MCPTool)
  listPrompts : MCPOutcome (List MCPPrompt)
deriving Repr

/-! ## Capability refresh (`MCPConnection.refreshTools` etc.) -/

/-- `MCPConnection.refreshTools`: on success replace `this.tools` wholesale;
on a thrown error append a diagnostic (with the `Error` message appended
after a colon when the thrown value is an `Error`) to `this.errors`. -/
def refreshTools (c : MCPConnection) (result : MCPOutcome (List MCPTool)) :
    MCPConnection :=
  match result with
  | .ok tools => { c with tools := tools }
  | .error e =>
      let errorMessage := "Error loading tools for MCP Server " ++ c.options.name
      let errorMessage :=
        match e with
        | some msg => errorMessage ++ ": " ++ msg
        | none => errorMessage
      { c with errors := c.errors ++ [errorMessage] }

/-- `MCPConnection.refreshResources`, same shape as `refreshTools`. -/
def refreshResources (c : MCPConnection)
    (result : MCPOutcome (List MCPResource)) : MCPConnection :=
  match result with
  | .ok resources => { c with resources := resources }
  | .error e =>
      let errorMessage := "Error loading resources for MCP Server " ++ c.options.name
      let errorMessage :=
        match e with
        | some msg => errorMessage ++ ": " ++ msg
        | none => errorMessage
      { c with errors := c.errors ++ [errorMessage] }

/-- `MCPConnection.refreshPrompts`, same shape as `refreshTools`. -/
def refreshPrompts (c : MCPConnection)
    (result : MCPOutcome (List MCPPrompt)) : MCPConnection :=
  match result with
  | .ok prompts => { c with prompts := prompts }
  | .error e =>
      let errorMessage := "Error loading prompts for MCP Server " ++ c.options.name
      let errorMessage :=
        match e with
        | some msg => errorMessage ++ ": " ++ msg
        | none => errorMessage
      { c with errors := c.errors ++ [errorMessage] }

/-- The diagnostic `refreshPrompts` appends when the prompts list request
throws (named form of the string built inside `refreshPrompts`). -/
def promptsFailureMessage (name : String) (e : Option String) : String :=
  match e with
  | some msg => "Error loading prompts for MCP Server " ++ name ++ ": " ++ msg
  | none => "Error loading prompts for MCP Server " ++ name

/-! ## connectClient (`MCPConnection.connectClient`) -/

/-- The `command` local of the catch block's ENOENT branch:
`msg.split(" ")[1]` of the lowercased error message.  A JavaScript
out-of-range `split(" ")[1]` is `undefined`, which the template renders as
the string `undefined`. -/
def enoentCommand (m : String) : String :=
  match (splitSpace (lowerStr m).data)[1]? with
  | some w => String.mk w
  | none => "undefined"

/-- The diagnostic built by `connectClient`'s catch block.  Starts from
`Failed to connect to MCP server <name>`; an `Error` whose lowercased
message contains both `spawn` and `enoent` is rewritten by appending
`command "<word 1 of the lowered message>" not found. ...` (note: the
source appends with no separator after the server name); any other `Error`
appends `: <original message>`; a non-`Error` throw appends nothing.  The
source's `errorMessage`/`msg`/`command` locals are inlined here. -/
def connectFailureMessage (name : String) (error : Option String) : String :=
  match error with
  | none => "Failed to connect to MCP server " ++ name
  | some m =>
      if strIncludes (lowerStr m) "spawn" && strIncludes (lowerStr m) "enoent" then
        "Failed to connect to MCP server " ++ name ++ "command \"" ++
          enoentCommand m ++
          "\" not found. To use this MCP server, install the " ++
          enoentCommand m ++ " CLI."
      else
        "Failed to connect to MCP server " ++ name ++ ": " ++ m

/-- `await this.client.connect(this.transport)` with the benign-race retry:
an `Error` whose message starts with `StdioClientTransport already started`
leads to `close()` and a second `connect` (outcome `reconnectResult`); every
other thrown value propagates. -/
def connectWithRetry (env : ConnectEnv) : MCPOutcome Unit :=
  match env.connectResult with
  | .ok () => .ok ()
  | .error e =>
      match e with
      | some msg =>
          if msg.startsWith "StdioClientTransport already started" then
            env.reconnectResult
          else .error (some msg)
      | none => .error none

/-- The innermost async of `connectClient`: rebuild the transport, connect
(with retry), register the two request handlers and three notification
handlers (pure with respect to the state observed by the claims), then for
each capability the server advertises issue the list request and store or
diagnose its outcome, and finally set `status = "connected"`.  A propagated
throw is the `Except.error` case. -/
def connectSequence (c : MCPConnection) (env : ConnectEnv) :
    MCPOutcome MCPConnection :=
  match connectWithRetry env with
  | .error e => .error e
  | .ok () =>
      let c :=
        match env.capabilities with
        | none => c
        | some capabilities =>
            let c := if capabilities.resources then refreshResources c env.listResources else c
            let c := if capabilities.tools then refreshTools c env.listTools else c
            let c := if capabilities.prompts then refreshPrompts c env.listPrompts else c
            c
      .ok { c with status := .connected }

/-- The attempt branch of the top-level race: the inner
`Promise.race([timeout rejector, connect sequence])` wrapped in
try/catch/finally.  On a timeout win the rejector throws
`Error("Connection timed out")`; the catch sets `status = "error"` and
appends `connectFailureMessage`; the finally clears the in-flight marker.
(When the timeout fires mid-sequence the real code may additionally have
appended capability diagnostics before the catch runs; the claims quantify
only the status and the appended connect diagnostic, which agree.) -/
def connectAttempt (c : MCPConnection) (env : ConnectEnv) : MCPConnection :=
  let raced : MCPOutcome MCPConnection :=
    if env.timedOut then .error (some "Connection timed out")
    else connectSequence c env
  let c :=
    match raced with
    | .ok c2 => c2
    | .error e =>
        { c with
          status := .error,
          errors := c.errors ++ [connectFailureMessage c.options.name e] }
  { c with connectionPromiseActive := false }

/-- The synchronous head of a connect attempt, run before the race is
awaited: `status = "connecting"`, clear `tools`/`prompts`/`resources`/
`errors`, abort and replace the own `AbortController`, and set
`this.connectionPromise` (the in-flight marker). -/
def beginConnectAttempt (c : MCPConnection) : MCPConnection :=
  { c with
    status := .connecting
    tools := []
    prompts := []
    resources := []
    errors := []
    abortGeneration := c.abortGeneration + 1
    connectionPromiseActive := true }

/-- Resolution of the top-level `Promise.race`: an abort-listener win
resolves with the state as already mutated (the attempt continues in the
background, outside the state observed at resolution); an attempt win
resolves with the attempt's final state. -/
def raceResolve (c : MCPConnection) (env : ConnectEnv) : MCPConnection :=
  match env.raceWinner with
  | .externalAbort => c
  | .ownAbort => c
  | .attempt => connectAttempt c env

/-- One call to `connectClient(forceRefresh, externalSignal)`.  Returns the
connection state at the moment the returned promise resolves, paired with
whether this call performed (started) a connect attempt.  The returned
promise never rejects — every throw inside the attempt is absorbed by
`connectAttempt`'s catch — which is why the result type carries no
exception.  Fast paths (non-forced): already `connected` resolves
immediately; an in-flight `connectionPromise` is awaited and the call
returns without touching any state (it resolves together with the owning
attempt). -/
def connectClientRun (c : MCPConnection) (forceRefresh : Bool)
    (env : ConnectEnv) : MCPConnection × Bool :=
  if forceRefresh = false ∧ c.status = .connected then (c, false)
  else if forceRefresh = false ∧ c.connectionPromiseActive = true then (c, false)
  else (raceResolve (beginConnectAttempt c) env, true)

/-! ## removeConnection (`MCPConnectorManager.removeConnection`) -/

/-- `removeConnection(id)`: look the connection up; when present, `await
connection.client.close()` — the call is NOT wrapped in try/catch, so a
thrown close error propagates out of `removeConnection` and
`this.connections.delete(id)` never runs; when close succeeds (or there is
no entry) the function returns `this.connections.delete(id)`.  The result
pairs the registry after the call with either the returned boolean or the
propagated throw. -/
def removeConnection (m : Registry) (id : String)
    (closeResult : MCPOutcome Unit) : Registry × MCPOutcome Bool :=
  match lookupConn m id with
  | some _ =>
      match closeResult with
      | .error e => (m, .error e)
      | .ok () => (eraseConn m id, .ok true)
  | none => (m, .ok false)

/-! ## Bulk-operation traces

The registry's bulk operations fan out over the map with `Promise.all` of
`Array.map(async ...)`.  Their observable behaviour is modelled as a trace
of `MgrEvent`s under the JavaScript event loop: the `map` call runs every
task synchronously to its first `await` (in map order) before any resumption
runs, and resumptions are then processed in issue order (uniform latency for
the awaited operations of one round), which interleaves the tasks'
await-separated segments round-robin.  The sequential-versus-concurrent
distinction settled below depends only on the synchronous start phase, not
on the uniform-latency tie-breaking. -/

/-- Events emitted by the manager's bulk operations.  Events carrying an id
belong to the per-connection task for that id. -/
inductive MgrEvent where
  /-- The registry-wide `abortController.abort()` plus its replacement. -/
  | generationBump
  /-- `connection.abortController.abort()` inside `removeAllConnections`. -/
  | abortConn (id : String)
  /-- `connection.client.close()` is issued (first await of `hardReset`). -/
  | closeStart (id : String)
  /-- A close failure inside `removeAllConnections` is caught and logged. -/
  | closeErrorLogged (id : String)
  /-- `hardReset` finished: transport and client rebuilt,
  `status = "not-connected"`. -/
  | hardResetDone (id : String)
  /-- `connection.abortController = new AbortController()` in relink. -/
  | newController (id : String)
  /-- The 500 ms settling `setTimeout` is scheduled and awaited. -/
  | delayStart (id : String)
  /-- The 500 ms settling timer fired. -/
  | delayDone (id : String)
  /-- `connection.connectClient(true, this.abortController.signal)` issued. -/
  | connectStart (id : String)
  /-- The forced `connectClient` resolved. -/
  | connectDone (id : String)
  /-- The per-connection catch of `relinkConnections` logged a failure. -/
  | relinkFailureLogged (id : String)
  /-- `this.connections.clear()` in `removeAllConnections`. -/
  | mapCleared
  /-- The registered `onConnectionsRefreshed` callback is invoked. -/
  | refreshedCallback
deriving DecidableEq, Repr

/-- The connection id an event belongs to (`none` for registry-level
events). -/
def MgrEvent.connId : MgrEvent → Option String
  | .generationBump => none
  | .abortConn id => some id
  | .closeStart id => some id
  | .closeErrorLogged id => some id
  | .hardResetDone id => some id
  | .newController id => some id
  | .delayStart id => some id
  | .delayDone id => some id
  | .connectStart id => some id
  | .connectDone id => some id
  | .relinkFailureLogged id => some id
  | .mapCleared => none
  | .refreshedCallback => none

/-- A relink task's first segment (synchronous head): enter `hardReset` and
issue `client.close()`. -/
def relinkSeg1 (p : String × Bool) : List MgrEvent :=
  [.closeStart p.1]

/-- A relink task's second segment (resumption of the `close()` await): on a
close throw the per-connection catch logs and the task ends; otherwise
finish `hardReset`, install the fresh `AbortController`, and schedule the
settling delay.  (`hardReset`'s `await client.close()` is the only step of
the relink body that can throw: the settling promise never rejects and
`connectClient` never rejects, see `connectClientRun`.) -/
def relinkSeg2 (p : String × Bool) : List MgrEvent :=
  if p.2 then [.relinkFailureLogged p.1]
  else [.hardResetDone p.1, .newController p.1, .delayStart p.1]

/-- A relink task's third segment (timer fired): start the forced
`connectClient`. -/
def relinkSeg3 (p : String × Bool) : List MgrEvent :=
  [.delayDone p.1, .connectStart p.1]

/-- A relink task's fourth segment: the forced `connectClient` resolved. -/
def relinkSeg4 (p : String × Bool) : List MgrEvent :=
  [.connectDone p.1]

/-- `MCPConnectorManager.relinkConnections()`.  Input: the registry entries
as `(id, close-throws?)` in insertion order.  First the registry-wide
controller is aborted and replaced; then `Promise.all` over
`Array.from(keys).map(async serverId => ...)` starts every per-connection
task, so the event-loop trace is the round-robin interleaving of the four
await-separated segments: ALL tasks issue their `close()` before ANY task
proceeds, and a task whose close threw drops out after its logged failure
without disturbing the others.  `onConnectionsRefreshed` is never invoked
(the function body does not mention it). -/
def relinkTrace (conns : List (String × Bool)) : List MgrEvent :=
  .generationBump ::
    ((conns.map relinkSeg1).flatten ++
     (conns.map relinkSeg2).flatten ++
     ((conns.filter fun p => !p.2).map relinkSeg3).flatten ++
     ((conns.filter fun p => !p.2).map relinkSeg4).flatten)

/-- Modelled from the spec's words (for comparison with `relinkTrace`):
`relinkConnections` "for every Connection sequentially performs hardReset →
fresh cancellation → settling delay → forced connect", i.e. the connections
are processed one at a time, each one's four steps completing before the
next connection is touched. -/
def relinkSequentialTrace (conns : List (String × Bool)) : List MgrEvent :=
  .generationBump ::
    (conns.map fun p =>
        if p.2 then [MgrEvent.closeStart p.1, .relinkFailureLogged p.1]
        else
          [MgrEvent.closeStart p.1, .hardResetDone p.1, .newController p.1,
           .delayStart p.1, .delayDone p.1, .connectStart p.1,
           .connectDone p.1]).flatten

/-- The full event sequence of the per-connection task for `id` inside
`relinkConnections` (close outcome `fails`): the order the code performs the
steps in, used to state that the concurrent fan-out preserves each
connection's own step order. -/
def relinkPerConnSeq (id : String) (fails : Bool) : List MgrEvent :=
  if fails then [.closeStart id, .relinkFailureLogged id]
  else
    [.closeStart id, .hardResetDone id, .newController id, .delayStart id,
     .delayDone id, .connectStart id, .connectDone id]

/-- `MCPConnectorManager.removeAllConnections(clear)`.  Input: registry
entries as `(id, close-throws?)`, the `clear` flag, and whether an
`onConnectionsRefreshed` callback is registered.  Every task synchronously
aborts the connection's controller and issues `close()`; a close throw is
caught inside the task and logged (fan-out, collect-all); after
`Promise.all` the map is cleared when requested and the callback, when set,
is invoked last. -/
def removeAllConnectionsTrace (conns : List (String × Bool)) (clear : Bool)
    (callbackSet : Bool) : List MgrEvent :=
  (conns.map fun p => [MgrEvent.abortConn p.1, .closeStart p.1]).flatten ++
  (conns.map fun p =>
      if p.2 then [MgrEvent.closeErrorLogged p.1] else ([] : List MgrEvent)).flatten ++
  (if clear then [MgrEvent.mapCleared] else []) ++
  (if callbackSet then [MgrEvent.refreshedCallback] else [])

/-- `MCPConnectorManager.refreshConnections(force)`: abort and replace the
registry-wide controller, then race the new controller's abort listener
against (connect every connection concurrently; then invoke the callback
when set).  `superseded = true` means a newer bump aborted this bulk refresh
before its connect fan-out completed, so at resolution nothing further is
observed. -/
def refreshConnectionsTrace (ids : List String) (superseded : Bool)
    (callbackSet : Bool) : List MgrEvent :=
  .generationBump ::
    (if superseded then []
     else
       (ids.map fun id => [MgrEvent.connectStart id]).flatten ++
       (ids.map fun id => [MgrEvent.connectDone id]).flatten ++
       (if callbackSet then [MgrEvent.refreshedCallback] else []))

/-! ## Concrete sample values for witnesses and counterexamples -/

/-- A concrete stdio connection configuration. -/
def sampleOptions : MCPOptions :=
  { name := "srv", id := "a", transport := .stdio "foo" [] none }

/-- A freshly constructed connection for `sampleOptions`. -/
def sampleConn : MCPConnection :=
  MCPConnection.init sampleOptions

/-- A one-entry registry holding `sampleConn` under id `a`. -/
def sampleRegistry : Registry :=
  [("a", sampleConn)]

/-- A connected connection with one resource and one tool. -/
def richConn : MCPConnection :=
  { sampleConn with
    status := .connected
    resources := [{ name := "r", uri := "mem://r" }]
    tools := [{ name := "search" }] }

/-- A connection in `error` status whose stale tool cache still lists
`search`. -/
def errSearchConn : MCPConnection :=
  { sampleConn with status := .error, tools := [{ name := "search" }] }

/-- A connected connection offering the tool `fetch`. -/
def fetchConn : MCPConnection :=
  { sampleConn with status := .connected, tools := [{ name := "fetch" }] }

/-- An environment in which the attempt branch wins but the inner timeout
fires. -/
def timeoutEnv : ConnectEnv :=
  { raceWinner := .attempt, timedOut := true, connectResult := .ok ()
    reconnectResult := .ok (), capabilities := none
    listResources := .ok [], listTools := .ok [], listPrompts := .ok [] }

/-- An environment in which the attempt succeeds with no advertised
capabilities. -/
def plainOkEnv : ConnectEnv :=
  { raceWinner := .attempt, timedOut := false, connectResult := .ok ()
    reconnectResult := .ok (), capabilities := none
    listResources := .ok [], listTools := .ok [], listPrompts := .ok [] }

/-- An environment in which connect succeeds, all three capabilities are
advertised, resources and tools load, and the prompts list request throws. -/
def promptsFailEnv : ConnectEnv :=
  { raceWinner := .attempt, timedOut := false, connectResult := .ok ()
    reconnectResult := .ok (), capabilities := some ⟨true, true, true⟩
    listResources := .ok [{ name := "r", uri := "mem://r" }]
    listTools := .ok [{ name := "search" }]
    listPrompts := .error (some "boom") }

/-- An environment in which `client.connect` throws the Node spawn-ENOENT
error for the missing executable `foo`. -/
def enoentEnv : ConnectEnv :=
  { raceWinner := .attempt, timedOut := false
    connectResult := .error (some "spawn foo ENOENT")
    reconnectResult := .ok (), capabilities := none
    listResources := .ok [], listTools := .ok [], listPrompts := .ok [] }

/-- An environment in which `client.connect` throws an ordinary error. -/
def refusedEnv : ConnectEnv :=
  { raceWinner := .attempt, timedOut := false
    connectResult := .error (some "ECONNREFUSED 127.0.0.1:3000")
    reconnectResult := .ok (), capabilities := none
    listResources := .ok [], listTools := .ok [], listPrompts := .ok [] }

/-! ## Shared helper lemmas -/

/-- Looking up past a block that does not contain the key. -/
theorem lookupConn_append_of_none (m l : Registry) (id : String)
    (h : lookupConn m id = none) : lookupConn (m ++ l) id = lookupConn l id := by
  induction m with
  | nil => rfl
  | cons p rest ih =>
      obtain ⟨k, c⟩ := p
      by_cases hk : k = id
      · rw [lookupConn, if_pos hk] at h
        cases h
      · rw [lookupConn, if_neg hk] at h
        rw [List.cons_append, lookupConn, if_neg hk]
        exact ih h

/-- A pattern matching at the head of a list still matches after appending. -/
theorem matchesAt_append (pat l r : List Char) (h : matchesAt pat l = true) :
    matchesAt pat (l ++ r) = true := by
  induction pat generalizing l with
  | nil => rfl
  | cons p ps ih =>
      cases l with
      | nil => cases h
      | cons a as =>
          rw [matchesAt, Bool.and_eq_true] at h
          rw [List.cons_append, matchesAt, Bool.and_eq_true]
          exact ⟨h.1, ih as h.2⟩

/-- The empty pattern occurs in every list. -/
theorem containsSeq_nil (l : List Char) : containsSeq l [] = true := by
  cases l with
  | nil => rfl
  | cons a as => rw [containsSeq, matchesAt, Bool.true_or]

/-- A contiguous occurrence survives appending on the right. -/
theorem containsSeq_append_left (l r pat : List Char)
    (h : containsSeq l pat = true) : containsSeq (l ++ r) pat = true := by
  induction l with
  | nil =>
      cases pat with
      | nil => exact containsSeq_nil r
      | cons p ps => cases h
  | cons a as ih =>
      rw [containsSeq, Bool.or_eq_true] at h
      rw [List.cons_append, containsSeq, Bool.or_eq_true]
      rcases h with h | h
      · exact Or.inl (matchesAt_append _ _ _ h)
      · exact Or.inr (ih h)

/-- Unfolding `String.append` to list append on the character data. -/
theorem strData_append (a b : String) : (a ++ b).data = a.data ++ b.data := by
  cases a
  cases b
  rfl

/-- Rebuilding a string from its own character data. -/
theorem strMk_data (s : String) : String.mk s.data = s := by
  cases s
  rfl

/-- With unique keys, two entries sharing a key are the same entry. -/
theorem entry_eq_of_nodup_keys {α : Type} {l : List (String × α)}
    (hnd : (l.map Prod.fst).Nodup) {a b : String × α}
    (ha : a ∈ l) (hb : b ∈ l) (h : a.1 = b.1) : a = b := by
  induction l with
  | nil => cases ha
  | cons p rest ih =>
      rw [List.map_cons, List.nodup_cons] at hnd
      rcases List.mem_cons.mp ha with ha1 | ha1 <;>
        rcases List.mem_cons.mp hb with hb1 | hb1
      · rw [ha1, hb1]
      · have hmem : p.1 ∈ rest.map Prod.fst := by
          rw [← ha1, h]
          exact List.mem_map_of_mem Prod.fst hb1
        exact absurd hmem hnd.1
      · have hmem : p.1 ∈ rest.map Prod.fst := by
          rw [← hb1, ← h]
          exact List.mem_map_of_mem Prod.fst ha1
        exact absurd hmem hnd.1
      · exact ih hnd.2 ha1 hb1

/-- Filtering the flattened blocks for one id keeps exactly that id's block,
when every block's events are tagged with its entry's key and keys are
unique: no matching entry means nothing survives. -/
theorem filter_flatten_map_nil {α : Type} (l : List (String × α))
    (g : String × α → List MgrEvent) (id : String)
    (hid : id ∉ l.map Prod.fst)
    (htag : ∀ p ∈ l, ∀ e ∈ g p, MgrEvent.connId e = some p.1) :
    ((l.map g).flatten.filter fun e => MgrEvent.connId e == some id) = [] := by
  induction l with
  | nil => rfl
  | cons p rest ih =>
      rw [List.map_cons, List.flatten_cons, List.filter_append]
      have hp : p.1 ≠ id := by
        intro hcontra
        exact hid (hcontra ▸ List.mem_map_of_mem Prod.fst (List.mem_cons_self p rest))
      have hblock : ((g p).filter fun e => MgrEvent.connId e == some id) = [] := by
        apply List.filter_eq_nil_iff.mpr
        intro e he
        rw [htag p (List.mem_cons_self p rest) e he]
        simp [hp]
      rw [hblock, List.nil_append]
      exact ih (fun hmem => hid (List.mem_map.mpr
          (by obtain ⟨q, hq, hq2⟩ := List.mem_map.mp hmem; exact ⟨q, List.mem_cons_of_mem p hq, hq2⟩)))
        (fun q hq => htag q (List.mem_cons_of_mem p hq))

/-- Filtering the flattened blocks for one id yields exactly that id's
block, when keys are unique and every block is tagged with its key. -/
theorem filter_flatten_map_eq {α : Type} (l : List (String × α))
    (g : String × α → List MgrEvent) (id : String) (x : String × α)
    (hnd : (l.map Prod.fst).Nodup) (hmem : x ∈ l) (hx : x.1 = id)
    (htag : ∀ p ∈ l, ∀ e ∈ g p, MgrEvent.connId e = some p.1) :
    ((l.map g).flatten.filter fun e => MgrEvent.connId e == some id) = g x := by
  induction l with
  | nil => cases hmem
  | cons p rest ih =>
      rw [List.map_cons, List.nodup_cons] at hnd
      rw [List.map_cons, List.flatten_cons, List.filter_append]
      rcases List.mem_cons.mp hmem with hx1 | hx1
      · have hblock : ((g p).filter fun e => MgrEvent.connId e == some id) = g p := by
          apply List.filter_eq_self.mpr
          intro e he
          rw [htag p (List.mem_cons_self p rest) e he, ← hx1, hx]
          simp
        have hrest : ((rest.map g).flatten.filter fun e => MgrEvent.connId e == some id) = [] := by
          apply filter_flatten_map_nil
          · rw [← hx, hx1]
            exact hnd.1
          · exact fun q hq => htag q (List.mem_cons_of_mem p hq)
        rw [hblock, hrest, List.append_nil, hx1]
      · have hp : p.1 ≠ id := by
          intro hcontra
          exact hnd.1 (hcontra ▸ hx ▸ List.mem_map_of_mem Prod.fst hx1)
        have hblock : ((g p).filter fun e => MgrEvent.connId e == some id) = [] := by
          apply List.filter_eq_nil_iff.mpr
          intro e he
          rw [htag p (List.mem_cons_self p rest) e he]
          simp [hp]
        rw [hblock, List.nil_append]
        exact ih hnd.2 hx1 (fun q hq => htag q (List.mem_cons_of_mem p hq))

/-! ## C8 — filter correctness of getAvailableConnectionResourcesWithId -/

/-- C8: `getAvailableConnectionResourcesWithId` returns an entry for a
connection exactly when that connection's status is `connected` and its
resource list is non-empty; no entry is ever produced for any other status
or for an empty resource list. -/
theorem availableResourcesWithId_mem_iff (m : Registry) (id : String)
    (rs : List MCPResource) :
    (id, rs) ∈ getAvailableConnectionResourcesWithId m ↔
      ∃ c, (id, c) ∈ m ∧ c.status = .connected ∧ 0 < c.resources.length ∧
        rs = c.resources := by
  unfold getAvailableConnectionResourcesWithId
  constructor
  · intro h
    obtain ⟨p, hp, heq⟩ := List.mem_map.mp h
    obtain ⟨hm, hcond⟩ := List.mem_filter.mp hp
    rw [Bool.and_eq_true, decide_eq_true_eq, decide_eq_true_eq] at hcond
    obtain ⟨hid, hrs⟩ := Prod.mk.injEq .. ▸ heq
    refine ⟨p.2, ?_, hcond.1, hcond.2, hrs.symm⟩
    rw [← hid]
    exact hm
  · rintro ⟨c, hm, hst, hlen, hrs⟩
    apply List.mem_map.mpr
    refine ⟨(id, c), List.mem_filter.mpr ⟨hm, ?_⟩, by rw [hrs]⟩
    rw [Bool.and_eq_true, decide_eq_true_eq, decide_eq_true_eq]
    exact ⟨hst, hlen⟩

/-! ## C9 — idempotence of createConnection -/

/-- C9: `createConnection(id, options)` is idempotent in `id`: with an entry
already present it returns the stored connection unchanged and leaves the
map unmodified (the supplied options are ignored, as the second call with
different options shows); with `id` absent it stores and returns a freshly
constructed connection, whose state shows no connect was initiated
(`not-connected`, no in-flight attempt); and an immediate second call
returns the very connection the first call produced with the map
unmodified. -/
theorem createConnection_idempotent (m : Registry) (id : String)
    (opts opts2 : MCPOptions) :
    (∀ c, lookupConn m id = some c → createConnection m id opts = (m, c)) ∧
    (lookupConn m id = none →
      createConnection m id opts =
        (m ++ [(id, MCPConnection.init opts)], MCPConnection.init opts) ∧
      (MCPConnection.init opts).status = .notConnected ∧
      (MCPConnection.init opts).connectionPromiseActive = false) ∧
    createConnection (createConnection m id opts).1 id opts2 =
      ((createConnection m id opts).1, (createConnection m id opts).2) := by
  refine ⟨?_, ?_, ?_⟩
  · intro c h
    unfold createConnection
    rw [h]
  · intro h
    unfold createConnection
    rw [h]
    exact ⟨rfl, rfl, rfl⟩
  · cases h : lookupConn m id with
    | some c =>
        have h1 : createConnection m id opts = (m, c) := by
          unfold createConnection
          rw [h]
        rw [h1]
        unfold createConnection
        rw [h]
    | none =>
        have h1 : createConnection m id opts =
            (m ++ [(id, MCPConnection.init opts)], MCPConnection.init opts) := by
          unfold createConnection
          rw [h]
        rw [h1]
        have hlook : lookupConn (m ++ [(id, MCPConnection.init opts)]) id =
            some (MCPConnection.init opts) := by
          rw [lookupConn_append_of_none m _ id h, lookupConn, if_pos rfl]
        unfold createConnection
        rw [hlook]

/-- Witness for C9 at a concrete registry: the second call returns exactly
the connection instance stored by the first and does not touch the map. -/
theorem createConnection_idempotent_witness :
    createConnection [] "a" sampleOptions =
      ([("a", MCPConnection.init sampleOptions)], MCPConnection.init sampleOptions) ∧
    createConnection [("a", MCPConnection.init sampleOptions)] "a" sampleOptions =
      ([("a", MCPConnection.init sampleOptions)], MCPConnection.init sampleOptions) := by
  have h := createConnection_idempotent [] "a" sampleOptions sampleOptions
  have h1 := (h.2.1 rfl).1
  refine ⟨h1, ?_⟩
  have h2 := h.2.2
  rw [h1] at h2
  exact h2

/-! ## C10 — findConnectionByToolName: first match, no status filter -/

/-- C10: `findConnectionByToolName` returns `none` exactly when no
connection's cached tool list contains the name; it returns `some (c, id)`
exactly when `(id, c)` is the first entry in map insertion order whose tool
list contains a tool with that exact name; and the returned id is invariant
under arbitrarily rewriting every connection's status — the lookup applies
no connection-status filter, so a connection whose status is `error`,
`connecting` or `not-connected` is returned all the same. -/
theorem findConnectionByToolName_first_match (m : Registry) (toolName : String) :
    (findConnectionByToolName m toolName = none ↔
      ∀ p ∈ m, hasToolNamed p.2 toolName = false) ∧
    (∀ c id, findConnectionByToolName m toolName = some (c, id) ↔
      ∃ pre post, m = pre ++ (id, c) :: post ∧
        (∀ q ∈ pre, hasToolNamed q.2 toolName = false) ∧
        hasToolNamed c toolName = true) ∧
    (∀ s, (findConnectionByToolName (m.map fun p => (p.1, setStatus p.2 s)) toolName).map
        (fun r => r.2) =
      (findConnectionByToolName m toolName).map fun r => r.2) := by
  refine ⟨?_, ?_, ?_⟩
  · induction m with
    | nil => simp [findConnectionByToolName]
    | cons p rest ih =>
        obtain ⟨k, c0⟩ := p
        rw [findConnectionByToolName]
        by_cases hk : hasToolNamed c0 toolName = true
        · rw [if_pos hk]
          simp only [List.mem_cons]
          constructor
          · intro h
            cases h
          · intro h
            have := h (k, c0) (Or.inl rfl)
            rw [hk] at this
            cases this
        · rw [if_neg hk, ih]
          constructor
          · intro h q hq
            rcases List.mem_cons.mp hq with h1 | h1
            · rw [h1]
              exact Bool.not_eq_true _ ▸ hk
            · exact h q h1
          · intro h q hq
            exact h q (List.mem_cons_of_mem _ hq)
  · intro c id
    induction m with
    | nil =>
        simp only [findConnectionByToolName]
        constructor
        · intro h
          cases h
        · rintro ⟨pre, post, habs, -, -⟩
          cases pre <;> cases habs
    | cons p rest ih =>
        obtain ⟨k, c0⟩ := p
        rw [findConnectionByToolName]
        by_cases hk : hasToolNamed c0 toolName = true
        · rw [if_pos hk]
          constructor
          · intro h
            have h0 : (c0, k) = (c, id) := Option.some.injEq .. ▸ h
            have h1 : c0 = c := (Prod.mk.injEq .. ▸ h0).1
            have h2 : k = id := (Prod.mk.injEq .. ▸ h0).2
            refine ⟨[], rest, ?_, ?_, h1 ▸ hk⟩
            · rw [← h1, ← h2]
              rfl
            · intro q hq
              cases hq
          · rintro ⟨pre, post, hsplit, hpre, hc⟩
            cases pre with
            | nil =>
                have h0 : (k, c0) = (id, c) := (List.cons.injEq .. ▸ hsplit).1
                have h1 : k = id := (Prod.mk.injEq .. ▸ h0).1
                have h2 : c0 = c := (Prod.mk.injEq .. ▸ h0).2
                rw [h1, h2]
            | cons q pre' =>
                have hq : (k, c0) = q := (List.cons.injEq .. ▸ hsplit).1
                have hfalse := hpre q (List.mem_cons_self q pre')
                rw [← hq] at hfalse
                simp only [hfalse] at hk
                cases hk
        · rw [if_neg hk, ih]
          constructor
          · rintro ⟨pre, post, hsplit, hpre, hc⟩
            refine ⟨(k, c0) :: pre, post, by rw [hsplit]; rfl, ?_, hc⟩
            intro q hq
            rcases List.mem_cons.mp hq with h1 | h1
            · rw [h1]
              exact Bool.not_eq_true _ ▸ hk
            · exact hpre q h1
          · rintro ⟨pre, post, hsplit, hpre, hc⟩
            cases pre with
            | nil =>
                have h0 : (k, c0) = (id, c) := (List.cons.injEq .. ▸ hsplit).1
                have hcc : c0 = c := (Prod.mk.injEq .. ▸ h0).2
                rw [← hcc] at hc
                exact absurd hc hk
            | cons q pre' =>
                have h2 := (List.cons.injEq .. ▸ hsplit).2
                exact ⟨pre', post, h2, fun r hr => hpre r (List.mem_cons_of_mem q hr), hc⟩
  · intro s
    induction m with
    | nil => rfl
    | cons p rest ih =>
        obtain ⟨k, c0⟩ := p
        rw [List.map_cons, findConnectionByToolName, findConnectionByToolName]
        have htools : hasToolNamed (setStatus c0 s) toolName = hasToolNamed c0 toolName := rfl
        by_cases hk : hasToolNamed c0 toolName = true
        · rw [htools, if_pos hk, if_pos hk]
          rfl
        · rw [htools, if_neg hk, if_neg hk]
          exact ih

/-! ## C4 — removeConnection propagates close errors -/

/-- C4 counterexample: on a registry holding one connection whose
`client.close()` throws, `removeConnection` rejects with that very error —
the exception IS propagated to the caller — and the entry is still in the
map afterwards: the deletion does not proceed.  This contradicts the claim
that close exceptions are absorbed and the entry deleted regardless. -/
theorem removeConnection_close_error_propagates :
    removeConnection sampleRegistry "a" (Except.error (some "close failed")) =
      (sampleRegistry, Except.error (some "close failed")) ∧
    hasConn (removeConnection sampleRegistry "a"
        (Except.error (some "close failed"))).1 "a" = true := by
  exact ⟨rfl, rfl⟩

/-- C4 amended: `removeConnection(id)` resolves `false` with the map
unchanged when no entry exists; when an entry exists and close succeeds it
deletes the entry and resolves `true`; but when close throws, the exception
propagates to the caller and the entry is NOT deleted (the map is
unchanged). -/
theorem removeConnection_behavior (m : Registry) (id : String)
    (closeResult : MCPOutcome Unit) :
    (lookupConn m id = none →
      removeConnection m id closeResult = (m, .ok false)) ∧
    (∀ c, lookupConn m id = some c → closeResult = .ok () →
      removeConnection m id closeResult = (eraseConn m id, .ok true)) ∧
    (∀ c e, lookupConn m id = some c → closeResult = .error e →
      removeConnection m id closeResult = (m, .error e)) := by
  refine ⟨?_, ?_, ?_⟩
  · intro h
    unfold removeConnection
    rw [h]
  · intro c h hok
    unfold removeConnection
    rw [h, hok]
  · intro c e h herr
    unfold removeConnection
    rw [h, herr]

/-- Witness for the amended C4 at a concrete registry: with a succeeding
close the entry is removed and `true` is returned. -/
theorem removeConnection_behavior_witness :
    removeConnection sampleRegistry "a" (Except.ok ()) =
      (eraseConn sampleRegistry "a", Except.ok true) :=
  (removeConnection_behavior sampleRegistry "a" (Except.ok ())).2.1 sampleConn rfl rfl

/-- Witness for C8: a connected connection with a non-empty resource list
is listed. -/
theorem availableResourcesWithId_mem_iff_witness :
    ("a", richConn.resources) ∈
      getAvailableConnectionResourcesWithId [("a", richConn)] :=
  (availableResourcesWithId_mem_iff [("a", richConn)] "a" richConn.resources).mpr
    ⟨richConn, List.mem_cons_self _ _, rfl, by decide, rfl⟩

/-- Witness for C10: a connection whose status is `error` but whose stale
tool cache lists `search` is still the entry returned for `search`. -/
theorem findConnectionByToolName_first_match_witness :
    findConnectionByToolName [("a", errSearchConn), ("b", fetchConn)] "search" =
      some (errSearchConn, "a") :=
  ((findConnectionByToolName_first_match [("a", errSearchConn), ("b", fetchConn)]
      "search").2.1 errSearchConn "a").mpr
    ⟨[], [("b", fetchConn)], rfl, fun q hq => absurd hq (List.not_mem_nil q), by decide⟩

/-! ## Lemmas about the connect attempt -/

/-- When `connectSequence` returns normally the resulting status is
`connected` (step 7 of the attempt sets it last, regardless of partial
capability-list failures). -/
theorem connectSequence_ok_status (c : MCPConnection) (env : ConnectEnv)
    (c2 : MCPConnection) (h : connectSequence c env = .ok c2) :
    c2.status = .connected := by
  unfold connectSequence at h
  cases hc : connectWithRetry env with
  | error e =>
      rw [hc] at h
      cases h
  | ok u =>
      cases u
      rw [hc] at h
      injection h with h2
      rw [← h2]

/-- `connectSequence` throws exactly the error of the (retried) low-level
connect: the capability-loading phase and the final status write never
throw. -/
theorem connectSequence_error_iff (c : MCPConnection) (env : ConnectEnv)
    (e : Option String) :
    connectSequence c env = .error e ↔ connectWithRetry env = .error e := by
  unfold connectSequence
  cases hc : connectWithRetry env with
  | error e2 => simp
  | ok u =>
      cases u
      simp

/-- Equation for `connectAttempt` when the timeout rejector wins the inner
race: the catch records the timeout as an `error` status with the timeout
diagnostic appended, and the finally clears the in-flight marker. -/
theorem connectAttempt_eq_timeout (c : MCPConnection) (env : ConnectEnv)
    (ht : env.timedOut = true) :
    connectAttempt c env =
      { c with
        status := .error
        errors := c.errors ++
          [connectFailureMessage c.options.name (some "Connection timed out")]
        connectionPromiseActive := false } := by
  unfold connectAttempt
  rw [ht]
  rfl

/-- Equation for `connectAttempt` when the connect sequence throws: the
catch records the rewritten diagnostic with `error` status. -/
theorem connectAttempt_eq_error (c : MCPConnection) (env : ConnectEnv)
    (e : Option String) (ht : env.timedOut = false)
    (herr : connectSequence c env = .error e) :
    connectAttempt c env =
      { c with
        status := .error
        errors := c.errors ++ [connectFailureMessage c.options.name e]
        connectionPromiseActive := false } := by
  unfold connectAttempt
  rw [ht, herr]
  rfl

/-- Equation for `connectAttempt` when the connect sequence completes: its
resulting state is kept, with the in-flight marker cleared. -/
theorem connectAttempt_eq_ok (c : MCPConnection) (env : ConnectEnv)
    (c2 : MCPConnection) (ht : env.timedOut = false)
    (hok : connectSequence c env = .ok c2) :
    connectAttempt c env = { c2 with connectionPromiseActive := false } := by
  unfold connectAttempt
  rw [ht, hok]
  rfl

/-- Reduction of `connectClientRun` to the attempt on the prepared state
when neither fast path applies and the attempt branch wins the race. -/
theorem connectClientRun_attempt (c : MCPConnection) (forceRefresh : Bool)
    (env : ConnectEnv)
    (h1 : ¬(forceRefresh = false ∧ c.status = .connected))
    (h2 : ¬(forceRefresh = false ∧ c.connectionPromiseActive = true))
    (hwin : env.raceWinner = .attempt) :
    connectClientRun c forceRefresh env =
      (connectAttempt (beginConnectAttempt c) env, true) := by
  unfold connectClientRun
  rw [if_neg h1, if_neg h2]
  unfold raceResolve
  rw [hwin]

/-! ## C1 — connectClient resolves with status in {connected, error} -/

/-- C1: a `connectClient` call that performs its attempt (neither fast path
taken) and is not abandoned by external or own cancellation always resolves
— the embedding is a total function, every throw inside the attempt being
absorbed by the catch in `connectAttempt` — with status `connected` or
`error`, never `not-connected` and never `connecting`; moreover a timeout
or a propagated transport/handshake failure resolves with status `error`
and exactly the corresponding diagnostic appended to the (previously
cleared) `errors`. -/
theorem connectClient_resolution_status (c : MCPConnection)
    (forceRefresh : Bool) (env : ConnectEnv)
    (hrun : ¬(forceRefresh = false ∧
      (c.status = .connected ∨ c.connectionPromiseActive = true)))
    (hwin : env.raceWinner = .attempt) :
    ((connectClientRun c forceRefresh env).1.status = .connected ∨
      (connectClientRun c forceRefresh env).1.status = .error) ∧
    (env.timedOut = true →
      (connectClientRun c forceRefresh env).1.status = .error ∧
      (connectClientRun c forceRefresh env).1.errors =
        [connectFailureMessage c.options.name (some "Connection timed out")]) ∧
    (∀ e, env.timedOut = false → connectWithRetry env = .error e →
      (connectClientRun c forceRefresh env).1.status = .error ∧
      (connectClientRun c forceRefresh env).1.errors =
        [connectFailureMessage c.options.name e]) := by
  have h1 : ¬(forceRefresh = false ∧ c.status = .connected) :=
    fun hx => hrun ⟨hx.1, Or.inl hx.2⟩
  have h2 : ¬(forceRefresh = false ∧ c.connectionPromiseActive = true) :=
    fun hx => hrun ⟨hx.1, Or.inr hx.2⟩
  rw [connectClientRun_attempt c forceRefresh env h1 h2 hwin]
  refine ⟨?_, ?_, ?_⟩
  · cases ht : env.timedOut with
    | true =>
        right
        rw [connectAttempt_eq_timeout _ _ ht]
    | false =>
        cases hs : connectSequence (beginConnectAttempt c) env with
        | error e =>
            right
            rw [connectAttempt_eq_error _ _ _ ht hs]
        | ok c2 =>
            left
            rw [connectAttempt_eq_ok _ _ _ ht hs]
            have h3 := connectSequence_ok_status _ _ _ hs
            exact h3
  · intro ht
    rw [connectAttempt_eq_timeout _ _ ht]
    exact ⟨rfl, rfl⟩
  · intro e ht herr
    rw [connectAttempt_eq_error _ _ _ ht
      ((connectSequence_error_iff (beginConnectAttempt c) env e).mpr herr)]
    exact ⟨rfl, rfl⟩

/-- Witness for C1: a forced connect on the sample connection under a
timing-out environment resolves with status `error`. -/
theorem connectClient_resolution_status_witness :
    (connectClientRun sampleConn true timeoutEnv).1.status = .error ∧
    (connectClientRun sampleConn true timeoutEnv).1.errors =
      [connectFailureMessage sampleOptions.name (some "Connection timed out")] :=
  (connectClient_resolution_status sampleConn true timeoutEnv
      (by intro hx; cases hx.1) rfl).2.1 rfl

/-! ## C2 — at most one in-flight connect attempt per Connection -/

/-- C2: overlapping non-forced `connectClient` calls perform exactly one
handshake.  Starting from an idle, not-connected state, the first call is
the one that runs the attempt (its result's flag is `true`): it first
executes the synchronous head `beginConnectAttempt`, which sets the
in-flight marker; a second non-forced call arriving while the attempt is in
flight sees the marker, performs no attempt (flag `false`), builds no
transport, resets no state — it returns the state exactly as it found it —
and merely awaits the shared `connectionPromise`, so both callers' promises
resolve together with the single attempt's final state
`(raceResolve (beginConnectAttempt c0) env1)`, observing the same final
status. -/
theorem connectClient_single_inflight (c0 : MCPConnection)
    (env1 env2 : ConnectEnv)
    (hidle : c0.connectionPromiseActive = false)
    (hnc : c0.status ≠ .connected) :
    connectClientRun c0 false env1 =
      (raceResolve (beginConnectAttempt c0) env1, true) ∧
    (beginConnectAttempt c0).connectionPromiseActive = true ∧
    connectClientRun (beginConnectAttempt c0) false env2 =
      (beginConnectAttempt c0, false) := by
  refine ⟨?_, rfl, ?_⟩
  · unfold connectClientRun
    rw [if_neg (fun hx => hnc hx.2),
      if_neg (fun hx => by rw [hidle] at hx; exact Bool.false_ne_true hx.2)]
  · unfold connectClientRun
    rw [if_neg (fun hx => by cases hx.2), if_pos ⟨rfl, rfl⟩]

/-- Witness for C2: concretely, the overlapped second caller returns the
in-flight state unchanged with no attempt performed. -/
theorem connectClient_single_inflight_witness :
    connectClientRun (beginConnectAttempt sampleConn) false plainOkEnv =
      (beginConnectAttempt sampleConn, false) :=
  (connectClient_single_inflight sampleConn plainOkEnv plainOkEnv rfl
      (by intro hx; cases hx)).2.2

/-! ## C6 — partial capability failure isolation -/

/-- An occurrence of a pattern in a string survives appending on the
right. -/
theorem strIncludes_append_left (a b pat : String)
    (h : strIncludes a pat = true) : strIncludes (a ++ b) pat = true := by
  unfold strIncludes at h ⊢
  rw [strData_append]
  exact containsSeq_append_left _ _ _ h

/-- C6: when connect and the resources and tools list requests succeed but
the prompts list request throws, the connect still completes: final status
is `connected`, `resources` and `tools` are populated wholesale with the
loaded lists, `prompts` stays empty, and `errors` holds exactly one
diagnostic — one mentioning `prompts`.  The one failure neither aborts the
other lists nor fails the connect. -/
theorem connect_partial_capability_isolation (c : MCPConnection)
    (forceRefresh : Bool) (env : ConnectEnv)
    (rs : List MCPResource) (ts : List MCPTool) (e : Option String)
    (hrun : ¬(forceRefresh = false ∧
      (c.status = .connected ∨ c.connectionPromiseActive = true)))
    (hwin : env.raceWinner = .attempt)
    (hnt : env.timedOut = false)
    (hconn : env.connectResult = .ok ())
    (hcaps : env.capabilities = some ⟨true, true, true⟩)
    (hres : env.listResources = .ok rs)
    (htools : env.listTools = .ok ts)
    (hpr : env.listPrompts = .error e) :
    (connectClientRun c forceRefresh env).1.status = .connected ∧
    (connectClientRun c forceRefresh env).1.resources = rs ∧
    (connectClientRun c forceRefresh env).1.tools = ts ∧
    (connectClientRun c forceRefresh env).1.prompts = [] ∧
    (connectClientRun c forceRefresh env).1.errors =
      [promptsFailureMessage c.options.name e] ∧
    strIncludes (promptsFailureMessage c.options.name e) "prompts" = true := by
  have h1 : ¬(forceRefresh = false ∧ c.status = .connected) :=
    fun hx => hrun ⟨hx.1, Or.inl hx.2⟩
  have h2 : ¬(forceRefresh = false ∧ c.connectionPromiseActive = true) :=
    fun hx => hrun ⟨hx.1, Or.inr hx.2⟩
  rw [connectClientRun_attempt c forceRefresh env h1 h2 hwin]
  have hseq : connectSequence (beginConnectAttempt c) env =
      .ok { beginConnectAttempt c with
            resources := rs
            tools := ts
            errors := [promptsFailureMessage c.options.name e]
            status := .connected } := by
    unfold connectSequence connectWithRetry
    rw [hconn, hcaps, hres, htools, hpr]
    unfold promptsFailureMessage
    cases e <;> rfl
  rw [connectAttempt_eq_ok _ _ _ hnt hseq]
  refine ⟨rfl, rfl, rfl, rfl, rfl, ?_⟩
  unfold promptsFailureMessage
  cases e with
  | none =>
      exact strIncludes_append_left "Error loading prompts for MCP Server "
        c.options.name "prompts" (by decide)
  | some msg =>
      exact strIncludes_append_left _ msg "prompts"
        (strIncludes_append_left _ ": " "prompts"
          (strIncludes_append_left "Error loading prompts for MCP Server "
            c.options.name "prompts" (by decide)))

/-- Witness for C6 at the concrete environment in which resources and
tools load and the prompts request throws `boom`. -/
theorem connect_partial_capability_isolation_witness :
    (connectClientRun sampleConn true promptsFailEnv).1.status = .connected ∧
    (connectClientRun sampleConn true promptsFailEnv).1.prompts = [] ∧
    (connectClientRun sampleConn true promptsFailEnv).1.errors =
      [promptsFailureMessage sampleOptions.name (some "boom")] := by
  have h := connect_partial_capability_isolation sampleConn true promptsFailEnv
    [{ name := "r", uri := "mem://r" }] [{ name := "search" }] (some "boom")
    (by intro hx; cases hx.1) rfl rfl rfl rfl rfl rfl rfl
  exact ⟨h.1, h.2.2.2.1, h.2.2.2.2.1⟩

/-! ## C7 — ENOENT spawn failures are rewritten, others kept verbatim -/

/-- Reduction of `connectFailureMessage` on an `Error` message: the match
on the option unfolds to the spawn-ENOENT test. -/
theorem connectFailureMessage_some (name m : String) :
    connectFailureMessage name (some m) =
      if strIncludes (lowerStr m) "spawn" && strIncludes (lowerStr m) "enoent" then
        "Failed to connect to MCP server " ++ name ++ "command \"" ++
          enoentCommand m ++
          "\" not found. To use this MCP server, install the " ++
          enoentCommand m ++ " CLI."
      else
        "Failed to connect to MCP server " ++ name ++ ": " ++ m := rfl

/-- Reduction of `connectWithRetry` when the first connect throws an
`Error`: only the benign `StdioClientTransport already started` message is
retried. -/
theorem connectWithRetry_error_some (env : ConnectEnv) (m : String)
    (h : env.connectResult = .error (some m)) :
    connectWithRetry env =
      if m.startsWith "StdioClientTransport already started" then
        env.reconnectResult
      else .error (some m) := by
  unfold connectWithRetry
  rw [h]

/-- C7: a connect failure on a stdio connection whose spawn error carries
the Node shape `spawn <command> ENOENT` resolves with status `error` and an
`errors` entry naming the attempted missing command and instructing its
installation (`install the <command> CLI`); any other connect error is
appended with the original error message after a colon instead.  The
computational hypotheses `hmatch`/`hcmd` pin down, checkably, that the
lowercased message passes the `spawn`/`enoent` test and that its word at
index 1 is the command itself (which holds whenever the command is a
lowercase word, as witnessed concretely). -/
theorem connect_enoent_rewrite (c : MCPConnection) (forceRefresh : Bool)
    (env env2 : ConnectEnv) (cmd other : String) (args : List String)
    (stdioEnv : Option (List (String × String)))
    (hrun : ¬(forceRefresh = false ∧
      (c.status = .connected ∨ c.connectionPromiseActive = true)))
    (_hstdio : c.options.transport = .stdio cmd args stdioEnv)
    (hwin : env.raceWinner = .attempt)
    (hnt : env.timedOut = false)
    (hconn : env.connectResult = .error (some ("spawn " ++ cmd ++ " ENOENT")))
    (hnostart : ("spawn " ++ cmd ++ " ENOENT").startsWith
      "StdioClientTransport already started" = false)
    (hmatch : (strIncludes (lowerStr ("spawn " ++ cmd ++ " ENOENT")) "spawn" &&
      strIncludes (lowerStr ("spawn " ++ cmd ++ " ENOENT")) "enoent") = true)
    (hcmd : enoentCommand ("spawn " ++ cmd ++ " ENOENT") = cmd)
    (hwin2 : env2.raceWinner = .attempt)
    (hnt2 : env2.timedOut = false)
    (hconn2 : env2.connectResult = .error (some other))
    (hnostart2 : other.startsWith "StdioClientTransport already started" = false)
    (hmatch2 : (strIncludes (lowerStr other) "spawn" &&
      strIncludes (lowerStr other) "enoent") = false) :
    (connectClientRun c forceRefresh env).1.status = .error ∧
    (connectClientRun c forceRefresh env).1.errors =
      ["Failed to connect to MCP server " ++ c.options.name ++ "command \"" ++
        cmd ++ "\" not found. To use this MCP server, install the " ++ cmd ++
        " CLI."] ∧
    (connectClientRun c forceRefresh env2).1.status = .error ∧
    (connectClientRun c forceRefresh env2).1.errors =
      ["Failed to connect to MCP server " ++ c.options.name ++ ": " ++ other] := by
  have h1 : ¬(forceRefresh = false ∧ c.status = .connected) :=
    fun hx => hrun ⟨hx.1, Or.inl hx.2⟩
  have h2 : ¬(forceRefresh = false ∧ c.connectionPromiseActive = true) :=
    fun hx => hrun ⟨hx.1, Or.inr hx.2⟩
  have hretry : connectWithRetry env = .error (some ("spawn " ++ cmd ++ " ENOENT")) := by
    rw [connectWithRetry_error_some env _ hconn, hnostart]
    rfl
  have hretry2 : connectWithRetry env2 = .error (some other) := by
    rw [connectWithRetry_error_some env2 _ hconn2, hnostart2]
    rfl
  have hmsgEq : connectFailureMessage c.options.name
      (some ("spawn " ++ cmd ++ " ENOENT")) =
      "Failed to connect to MCP server " ++ c.options.name ++ "command \"" ++
        cmd ++ "\" not found. To use this MCP server, install the " ++ cmd ++
        " CLI." := by
    rw [connectFailureMessage_some, hmatch, hcmd]
    rfl
  have hmsgEq2 : connectFailureMessage c.options.name (some other) =
      "Failed to connect to MCP server " ++ c.options.name ++ ": " ++ other := by
    rw [connectFailureMessage_some, hmatch2]
    rfl
  refine ⟨?_, ?_, ?_, ?_⟩
  · rw [connectClientRun_attempt c forceRefresh env h1 h2 hwin,
      connectAttempt_eq_error _ _ _ hnt
        ((connectSequence_error_iff _ env _).mpr hretry)]
  · rw [connectClientRun_attempt c forceRefresh env h1 h2 hwin,
      connectAttempt_eq_error _ _ _ hnt
        ((connectSequence_error_iff _ env _).mpr hretry)]
    show ([] : List String) ++
        [connectFailureMessage c.options.name
          (some ("spawn " ++ cmd ++ " ENOENT"))] = _
    rw [hmsgEq]
    rfl
  · rw [connectClientRun_attempt c forceRefresh env2 h1 h2 hwin2,
      connectAttempt_eq_error _ _ _ hnt2
        ((connectSequence_error_iff _ env2 _).mpr hretry2)]
  · rw [connectClientRun_attempt c forceRefresh env2 h1 h2 hwin2,
      connectAttempt_eq_error _ _ _ hnt2
        ((connectSequence_error_iff _ env2 _).mpr hretry2)]
    show ([] : List String) ++
        [connectFailureMessage c.options.name (some other)] = _
    rw [hmsgEq2]
    rfl

/-- Witness for C7: the sample stdio connection whose command `foo` is
missing resolves in `error` with the rewritten installation hint, and an
ordinary refused connection keeps its original message. -/
theorem connect_enoent_rewrite_witness :
    (connectClientRun sampleConn true enoentEnv).1.status = .error ∧
    (connectClientRun sampleConn true enoentEnv).1.errors =
      ["Failed to connect to MCP server " ++ sampleOptions.name ++
        "command \"" ++ "foo" ++
        "\" not found. To use this MCP server, install the " ++ "foo" ++
        " CLI."] ∧
    (connectClientRun sampleConn true refusedEnv).1.errors =
      ["Failed to connect to MCP server " ++ sampleOptions.name ++ ": " ++
        "ECONNREFUSED 127.0.0.1:3000"] := by
  have h := connect_enoent_rewrite sampleConn true enoentEnv refusedEnv "foo"
    "ECONNREFUSED 127.0.0.1:3000" [] none
    (by intro hx; cases hx.1) rfl rfl rfl rfl (by decide) (by decide) (by decide)
    rfl rfl rfl (by decide) (by decide)
  exact ⟨h.1, h.2.1, h.2.2.2⟩

/-! ## C3 — relinkConnections is concurrent, not sequential -/

/-- Filtering drops a head that fails the predicate. -/
theorem filter_cons_false {α : Type} (p : α → Bool) (a : α) (l : List α)
    (h : p a = false) : (a :: l).filter p = l.filter p := by
  simp [List.filter_cons, h]

/-- C3 counterexample: on a two-connection registry the trace of
`relinkConnections` is NOT the one-at-a-time sequential trace the claim
describes — under `Promise.all` over `Array.map(async ...)` both tasks
issue their `close()` (begin `hardReset`) before either proceeds, so
connection `b`'s hardReset begins before connection `a`'s forced connect
has completed; the explicit interleaved trace is shown. -/
theorem relink_not_sequential_counterexample :
    relinkTrace [("a", false), ("b", false)] ≠
      relinkSequentialTrace [("a", false), ("b", false)] ∧
    relinkTrace [("a", false), ("b", false)] =
      [.generationBump, .closeStart "a", .closeStart "b",
       .hardResetDone "a", .newController "a", .delayStart "a",
       .hardResetDone "b", .newController "b", .delayStart "b",
       .delayDone "a", .connectStart "a", .delayDone "b", .connectStart "b",
       .connectDone "a", .connectDone "b"] := by
  exact ⟨by decide, rfl⟩

/-- C3 amended: `relinkConnections` first bumps the registry-wide
cancellation generation, then processes all Connections CONCURRENTLY
(`Promise.all` fan-out) rather than one at a time; within each Connection
the steps still happen in order hardReset → fresh per-Connection
AbortController → ~500 ms settling delay → forced connectClient, as the
projection of the trace onto that Connection's events shows; and a failure
on one Connection is logged by the per-Connection catch and does not remove
any other Connection's events from the trace (the projection for a
non-failing id is its full step sequence whatever the other entries'
outcomes are). -/
theorem relink_concurrent_per_connection (conns : List (String × Bool))
    (id : String) (fails : Bool)
    (hnd : (conns.map Prod.fst).Nodup) (hmem : (id, fails) ∈ conns) :
    (relinkTrace conns).head? = some .generationBump ∧
    (relinkTrace conns).filter (fun e => MgrEvent.connId e == some id) =
      relinkPerConnSeq id fails := by
  have htag1 : ∀ p ∈ conns, ∀ e ∈ relinkSeg1 p, MgrEvent.connId e = some p.1 := by
    intro p _ e he
    rw [List.mem_singleton.mp he]
    rfl
  have htag2 : ∀ p ∈ conns, ∀ e ∈ relinkSeg2 p, MgrEvent.connId e = some p.1 := by
    intro p _ e he
    unfold relinkSeg2 at he
    by_cases h2 : p.2 = true
    · rw [if_pos h2] at he
      rw [List.mem_singleton.mp he]
      rfl
    · rw [if_neg h2] at he
      rcases List.mem_cons.mp he with rfl | he
      · rfl
      rcases List.mem_cons.mp he with rfl | he
      · rfl
      rcases List.mem_cons.mp he with rfl | he
      · rfl
      cases he
  have htag3 : ∀ p ∈ conns.filter (fun p => !p.2), ∀ e ∈ relinkSeg3 p,
      MgrEvent.connId e = some p.1 := by
    intro p _ e he
    rcases List.mem_cons.mp he with rfl | he
    · rfl
    rcases List.mem_cons.mp he with rfl | he
    · rfl
    cases he
  have htag4 : ∀ p ∈ conns.filter (fun p => !p.2), ∀ e ∈ relinkSeg4 p,
      MgrEvent.connId e = some p.1 := by
    intro p _ e he
    rw [List.mem_singleton.mp he]
    rfl
  refine ⟨rfl, ?_⟩
  unfold relinkTrace
  rw [filter_cons_false _ _ _ rfl, List.filter_append, List.filter_append,
    List.filter_append]
  cases fails with
  | false =>
      have hsub : List.Sublist ((conns.filter (fun p => !p.2)).map Prod.fst)
          (conns.map Prod.fst) :=
        List.Sublist.map Prod.fst (List.filter_sublist conns)
      have hnd' := List.Nodup.sublist hsub hnd
      have hmem' : (id, false) ∈ conns.filter (fun p => !p.2) :=
        List.mem_filter.mpr ⟨hmem, rfl⟩
      rw [filter_flatten_map_eq conns relinkSeg1 id (id, false) hnd hmem rfl htag1,
        filter_flatten_map_eq conns relinkSeg2 id (id, false) hnd hmem rfl htag2,
        filter_flatten_map_eq _ relinkSeg3 id (id, false) hnd' hmem' rfl htag3,
        filter_flatten_map_eq _ relinkSeg4 id (id, false) hnd' hmem' rfl htag4]
      rfl
  | true =>
      have hnotin : id ∉ (conns.filter (fun p => !p.2)).map Prod.fst := by
        intro hin
        obtain ⟨p, hp, hpfst⟩ := List.mem_map.mp hin
        obtain ⟨hpc, hq⟩ := List.mem_filter.mp hp
        have hpe : p = (id, true) :=
          entry_eq_of_nodup_keys hnd hpc hmem hpfst
        rw [hpe] at hq
        cases hq
      rw [filter_flatten_map_eq conns relinkSeg1 id (id, true) hnd hmem rfl htag1,
        filter_flatten_map_eq conns relinkSeg2 id (id, true) hnd hmem rfl htag2,
        filter_flatten_map_nil _ relinkSeg3 id hnotin htag3,
        filter_flatten_map_nil _ relinkSeg4 id hnotin htag4]
      rfl

/-- Witness for the amended C3: on the two-connection registry in which
`a`'s close throws, `b`'s projection is still its full seven-step sequence
and `a`'s is close-then-logged-failure. -/
theorem relink_concurrent_per_connection_witness :
    (relinkTrace [("a", true), ("b", false)]).filter
        (fun e => MgrEvent.connId e == some "b") =
      relinkPerConnSeq "b" false ∧
    (relinkTrace [("a", true), ("b", false)]).filter
        (fun e => MgrEvent.connId e == some "a") =
      relinkPerConnSeq "a" true :=
  ⟨(relink_concurrent_per_connection [("a", true), ("b", false)] "b" false
      (by decide) (by decide)).2,
   (relink_concurrent_per_connection [("a", true), ("b", false)] "a" true
      (by decide) (by decide)).2⟩

/-! ## C5 — the refreshed callback fires after removeAll/refresh, not relink -/

/-- The last element of a non-empty cons-append chain ending in a
singleton. -/
theorem getLast?_cons_concat {α : Type} (x a : α) (l : List α) :
    (x :: (l ++ [a])).getLast? = some a := by
  rw [← List.cons_append]
  exact List.getLast?_concat _

/-- No event of `relinkConnections`'s trace is the refreshed-callback
invocation: the function body never mentions `onConnectionsRefreshed`. -/
theorem refreshedCallback_not_mem_relinkTrace (conns : List (String × Bool)) :
    MgrEvent.refreshedCallback ∉ relinkTrace conns := by
  intro h
  unfold relinkTrace at h
  rcases List.mem_cons.mp h with hg | h
  · cases hg
  rcases List.mem_append.mp h with h | hD
  · rcases List.mem_append.mp h with h | hC
    · rcases List.mem_append.mp h with hA | hB
      · obtain ⟨l, hl, hx⟩ := List.mem_flatten.mp hA
        obtain ⟨p, _, rfl⟩ := List.mem_map.mp hl
        cases List.mem_singleton.mp hx
      · obtain ⟨l, hl, hx⟩ := List.mem_flatten.mp hB
        obtain ⟨p, _, rfl⟩ := List.mem_map.mp hl
        unfold relinkSeg2 at hx
        by_cases h2 : p.2 = true
        · rw [if_pos h2] at hx
          cases List.mem_singleton.mp hx
        · rw [if_neg h2] at hx
          rcases List.mem_cons.mp hx with hx1 | hx
          · cases hx1
          rcases List.mem_cons.mp hx with hx1 | hx
          · cases hx1
          rcases List.mem_cons.mp hx with hx1 | hx
          · cases hx1
          cases hx
    · obtain ⟨l, hl, hx⟩ := List.mem_flatten.mp hC
      obtain ⟨p, _, rfl⟩ := List.mem_map.mp hl
      rcases List.mem_cons.mp hx with hx1 | hx
      · cases hx1
      rcases List.mem_cons.mp hx with hx1 | hx
      · cases hx1
      cases hx
  · obtain ⟨l, hl, hx⟩ := List.mem_flatten.mp hD
    obtain ⟨p, _, rfl⟩ := List.mem_map.mp hl
    cases List.mem_singleton.mp hx

/-- C5 counterexample: with a callback registered, `removeAllConnections`
ends by invoking it, but `relinkConnections` — also a bulk operation —
never invokes it at all, contradicting the claim that the callback fires
after every bulk operation. -/
theorem relink_missing_refreshed_callback :
    MgrEvent.refreshedCallback ∉ relinkTrace [("a", false)] ∧
    MgrEvent.refreshedCallback ∈ removeAllConnectionsTrace [("a", false)] true true := by
  exact ⟨by decide, by decide⟩

/-- C5 amended: when a callback is registered, `removeAllConnections`
invokes `onConnectionsRefreshed` as its final step, and so does
`refreshConnections` when its connect fan-out completes without being
superseded by an abort; but `relinkConnections` never invokes the callback
on any registry. -/
theorem bulk_operations_refreshed_callback (conns : List (String × Bool))
    (ids : List String) (clear : Bool) :
    (removeAllConnectionsTrace conns clear true).getLast? =
      some .refreshedCallback ∧
    (refreshConnectionsTrace ids false true).getLast? =
      some .refreshedCallback ∧
    ∀ conns2 : List (String × Bool),
      MgrEvent.refreshedCallback ∉ relinkTrace conns2 := by
  refine ⟨?_, ?_, refreshedCallback_not_mem_relinkTrace⟩
  · show ((((conns.map fun p => [MgrEvent.abortConn p.1, .closeStart p.1]).flatten ++
        (conns.map fun p =>
          if p.2 then [MgrEvent.closeErrorLogged p.1] else ([] : List MgrEvent)).flatten) ++
        (if clear then [MgrEvent.mapCleared] else [])) ++
        [MgrEvent.refreshedCallback]).getLast? = some MgrEvent.refreshedCallback
    exact List.getLast?_concat _
  · show (MgrEvent.generationBump ::
        (((ids.map fun id => [MgrEvent.connectStart id]).flatten ++
          (ids.map fun id => [MgrEvent.connectDone id]).flatten) ++
          [MgrEvent.refreshedCallback])).getLast? = some MgrEvent.refreshedCallback
    exact getLast?_cons_concat _ _ _

/-- Witness for the amended C5 at concrete registries: the callback event
closes the removeAll trace and is absent from a relink trace. -/
theorem bulk_operations_refreshed_callback_witness :
    (removeAllConnectionsTrace [("a", false)] true true).getLast? =
      some MgrEvent.refreshedCallback ∧
    MgrEvent.refreshedCallback ∉ relinkTrace [("b", false)] :=
  ⟨(bulk_operations_refreshed_callback [("a", false)] ["x"] true).1,
   (bulk_operations_refreshed_callback [("a", false)] ["x"] true).2.2 [("b", false)]⟩
